import Mathlib

/-!
Verification of the transcription–playback engine of
`japanese-audio-transcriber` (`src/main.py`).

The Python program is a single `AudioTranscriber` widget plus a
`TranscribeWorker` thread.  We embed its state and operations shallowly:

* `AppState` mirrors the widget's mutable fields (`audio_path`,
  `audio_segment`, `play_obj`, `segments`, `worker`, the status label and
  the button/list enabled flags).  The opaque `simpleaudio` device is
  modelled by a set (`List Nat`) of handle ids that are currently playing
  (`live`); `play_obj.is_playing()` is membership of the referenced handle
  in `live`.  The decoded `pydub.AudioSegment` buffer is opaque and is
  modelled by its millisecond duration (`Option Nat`); Python truthiness of
  an `AudioSegment` is `len != 0`.
* Each widget method (`load_audio`, `transcribe_audio`, `play_audio`,
  `stop_audio`, `jump_to_word`, `on_transcription_done`,
  `on_transcription_error`) becomes a function `AppState → AppState`,
  translated line by line from the source.  External collaborators
  (file dialog, audio decoder) enter as explicit parameters.
* `TranscribeWorker.run` together with `TranscribeWorker.stop` becomes a
  small-step machine (`WorkerM`, `wstep`, `wcancel`) so that a cancellation
  can be interleaved at any program point of `run`.
* Machine floats (`f64` times in seconds) are modelled as `ℚ`; Python's
  `f"{x:.2f}"` rendering is rounding to centiseconds with round-half-to-even.
-/

namespace Transcriber

/-- A recognized segment as produced by the recognition service and stored
in `self.segments`: `seg['text']`, `seg['start']`, `seg['end']` (seconds). -/
structure Segment where
  text : String
  startSec : ℚ
  endSec : ℚ
deriving DecidableEq

/-- The mutable state of the `AudioTranscriber` widget (src/main.py:81-97),
plus the device-side bookkeeping needed to talk about live playback handles:
`live` is the set of handle ids currently playing on the audio device,
`nextHandle` a fresh-id counter, `playStartMs` the offset (ms) the slice
handed to the device started at, `runningJobs` the ids of
`TranscribeWorker` threads whose `run()` has been started and has not
returned, and `nextWorker` a fresh worker-id counter. -/
structure AppState where
  audioPath : Option String
  audioSegment : Option Nat
  playObj : Option Nat
  live : List Nat
  nextHandle : Nat
  playStartMs : ℤ
  segments : List Segment
  statusText : String
  worker : Option Nat
  runningJobs : List Nat
  nextWorker : Nat
  modelLoaded : Bool
  transcribeEnabled : Bool
  playEnabled : Bool
  stopEnabled : Bool
  loadEnabled : Bool
  listEnabled : Bool
deriving DecidableEq

/-- Python truthiness of `self.audio_segment` (src/main.py:150): `None` and a
zero-length `AudioSegment` are falsy. -/
def audioTruthy (s : AppState) : Bool :=
  match s.audioSegment with
  | some d => d != 0
  | none => false

/-- Python truthiness of `self.audio_path` (src/main.py:114): `None` and the
empty string are falsy. -/
def pathTruthy (s : AppState) : Bool :=
  match s.audioPath with
  | some p => p != ""
  | none => false

/-- Model of `AudioTranscriber.stop_audio` (src/main.py:167-174): if `play_obj` is set
and its handle is still playing, stop the handle and clear `play_obj`;
afterwards `play_obj = None` is assigned unconditionally (line 174).  The
device stop is modelled as succeeding (the `except` arm only sets the status
label). -/
def stop_audio (s : AppState) : AppState :=
  match s.playObj with
  | some h =>
    if h ∈ s.live then { s with live := s.live.erase h, playObj := none }
    else { s with playObj := none }
  | none => { s with playObj := none }

/-- Model of `AudioTranscriber.play_audio` (src/main.py:149-166): guarded by the
truthiness of `audio_segment`; first calls `stop_audio`, then hands the
slice `audio_segment[start_ms:]` to `sa.play_buffer`, obtaining a fresh live
handle, and re-enables the transcription list.  The `except` arm (device
rejection) only sets the status label and is not modelled: the normal path
is deterministic. -/
def play_audio (startMs : ℤ) (s : AppState) : AppState :=
  if audioTruthy s then
    let s1 := stop_audio s
    { s1 with
        playObj := some s1.nextHandle,
        live := s1.live ++ [s1.nextHandle],
        nextHandle := s1.nextHandle + 1,
        playStartMs := startMs,
        listEnabled := true }
  else s

/-- Model of `AudioTranscriber.transcribe_audio` (src/main.py:113-129): rejects (status
message, early return) only when `audio_path` or `model` is falsy; otherwise
disables the four buttons, sets the status, creates a fresh
`TranscribeWorker` (overwriting `self.worker`) and starts it.  There is no
check for an already-running worker. -/
def transcribe_audio (s : AppState) : AppState :=
  if !pathTruthy s || !s.modelLoaded then
    { s with statusText := "Audio or model not loaded." }
  else
    { s with
        transcribeEnabled := false,
        playEnabled := false,
        stopEnabled := false,
        loadEnabled := false,
        statusText := "Transcribing...",
        worker := some s.nextWorker,
        runningJobs := s.runningJobs ++ [s.nextWorker],
        nextWorker := s.nextWorker + 1 }

/-- Model of `AudioTranscriber.on_transcription_done` (src/main.py:131-140): stores the
emitted segment list verbatim, refreshes the list widget, sets the status and
re-enables the four buttons.  No filtering of any kind is applied. -/
def on_transcription_done (s : AppState) (segs : List Segment) : AppState :=
  { s with
      segments := segs,
      statusText := "Transcription done!",
      transcribeEnabled := true,
      playEnabled := true,
      stopEnabled := true,
      loadEnabled := true }

/-- Model of `AudioTranscriber.on_transcription_error` (src/main.py:142-147): sets the
status label from the message and re-enables the four buttons; nothing else
is touched. -/
def on_transcription_error (s : AppState) (msg : String) : AppState :=
  { s with
      statusText := "Transcription error: " ++ msg,
      transcribeEnabled := true,
      playEnabled := true,
      stopEnabled := true,
      loadEnabled := true }

/-- Model of `AudioTranscriber.load_audio` (src/main.py:99-111).  The file dialog
result is the `fileName` parameter (`none` = dialog cancelled, falsy);
`AudioSegment.from_file` is the opaque `decode` parameter.  Note the source
order inside the `try`: `self.audio_path = file_name` is executed *before*
decoding, so on a decode failure the path has already been overwritten while
`audio_segment` keeps its previous value.  (The status uses the basename;
we keep the full name.) -/
def load_audio (s : AppState) (fileName : Option String)
    (decode : String → Except String Nat) : AppState :=
  match fileName with
  | none => s
  | some f =>
    match decode f with
    | .ok buf =>
      { s with
          audioPath := some f,
          audioSegment := some buf,
          statusText := "Loaded audio: " ++ f,
          playEnabled := true,
          stopEnabled := true }
    | .error e =>
      { s with
          audioPath := some f,
          statusText := "Error loading audio: " ++ e }

/-- Round to the nearest integer, ties to even: the rounding used by
Python's `f"{x:.2f}"` on exactly representable values. -/
def roundHalfEven (q : ℚ) : ℤ :=
  if q - ⌊q⌋ < 1 / 2 then ⌊q⌋
  else if 1 / 2 < q - ⌊q⌋ then ⌊q⌋ + 1
  else if 2 ∣ ⌊q⌋ then ⌊q⌋ else ⌊q⌋ + 1

/-- The start time a list item displays: `f"{seg['start']:.2f}"` renders the
start rounded to centiseconds (src/main.py:135), and `jump_to_word` parses
exactly that two-decimal number back out of the item text
(src/main.py:182-183).  `fmt2 q` is the rational value of that rendering. -/
def fmt2 (q : ℚ) : ℚ :=
  (roundHalfEven (100 * q) : ℚ) / 100

/-- Model of `AudioTranscriber.jump_to_word` (src/main.py:176-192) for the item at
index `i` of the list (items are added in `segments` order by
`on_transcription_done`): disables the list, parses the displayed start time
(`fmt2` of the segment's start, see `fmt2`), converts it with
`int(start_time * 1000)`, then calls `stop_audio` followed by
`play_audio(start_ms)`.  An out-of-range index stands for the `except` arm
(status message, list re-enabled). -/
def jump_to_word (s : AppState) (i : Nat) : AppState :=
  match s.segments.get? i with
  | some seg =>
    let startMs : ℤ := ⌊fmt2 seg.startSec * 1000⌋
    play_audio startMs (stop_audio { s with listEnabled := false })
  | none =>
    { s with statusText := "Jump error: Invalid time format", listEnabled := true }

/-- The user-driven playback operations of the widget. -/
inductive Op where
  | play (startMs : ℤ)
  | stop
deriving DecidableEq

/-- Apply one playback operation. -/
def applyOp (op : Op) (s : AppState) : AppState :=
  match op with
  | .play ms => play_audio ms s
  | .stop => stop_audio s

/-- Run a sequence of playback operations, left to right. -/
def runOps (ops : List Op) (s : AppState) : AppState :=
  ops.foldl (fun st op => applyOp op st) s

/-- Handle-hygiene invariant of the playback state: every handle that is
still playing on the device is the one `play_obj` references, and all
allocated handles are below the fresh-id counter. -/
def Inv (s : AppState) : Prop :=
  s.live.length ≤ 1 ∧
  (∀ h ∈ s.live, s.playObj = some h) ∧
  (∀ h ∈ s.live, h < s.nextHandle)

instance (s : AppState) : Decidable (Inv s) := by
  unfold Inv; infer_instance

/-! ## The `TranscribeWorker` thread

`TranscribeWorker.run` (src/main.py:29-38) is

```text
if self._is_running:
    result = self.model.transcribe(...)
    segments = result.get("segments", [])
    self.finished.emit(segments)
```

and `TranscribeWorker.stop` (src/main.py:26-27) sets `self._is_running =
False` from another thread.  We model `run` as a two-instruction program —
program counter `0`: read the flag (the recognition call follows the read
and is not preemptible); program counter `1`: the recognition call returns
and `finished` is emitted; `2`: done — and let a `cancel` action interleave
at any point.  The `except` arm (`error.emit`) concerns service failures,
not cancellation, and is handled by `on_transcription_error` on the widget
side. -/

/-- A signal emitted by the worker. -/
inductive WEvent where
  | finished (segs : List Segment)
  | failed (msg : String)
deriving DecidableEq

/-- Execution state of one `TranscribeWorker.run`: program counter, the
`_is_running` flag, and the signals emitted so far. -/
structure WorkerM where
  pc : Nat
  isRunning : Bool
  emitted : List WEvent
deriving DecidableEq

/-- One step of `run` with recognition result `segs`: at pc 0 the flag is
read (if clear, the body is skipped); at pc 1 the recognition call returns
and `finished.emit(segments)` fires — the flag is not consulted again. -/
def wstep (segs : List Segment) (m : WorkerM) : WorkerM :=
  match m.pc with
  | 0 => if m.isRunning then { m with pc := 1 } else { m with pc := 2 }
  | 1 => { m with pc := 2, emitted := m.emitted ++ [WEvent.finished segs] }
  | _ => m

/-- Model of `TranscribeWorker.stop`: clear the flag, at whatever point of `run` the
worker currently is. -/
def wcancel (m : WorkerM) : WorkerM :=
  { m with isRunning := false }

/-- An interleaving action: either the worker advances, or `stop()` is
delivered. -/
inductive WAct where
  | step
  | cancel
deriving DecidableEq

/-- Run a schedule of interleaved actions. -/
def wrun (segs : List Segment) (acts : List WAct) (m : WorkerM) : WorkerM :=
  acts.foldl (fun st a => match a with | .step => wstep segs st | .cancel => wcancel st) m

/-- A freshly constructed worker about to enter `run` (`_is_running = True`,
src/main.py:24). -/
def w0 : WorkerM := ⟨0, true, []⟩

/-! ## `SegmentStore.findActive`

No highlight/active-segment lookup exists in `src/main.py`; the spec
specifies it for `SegmentStore` (§4.1). -/

/-- Inclusive containment test `start <= t <= end` (§4.1: the source treats
both bounds inclusively). -/
def segContains (seg : Segment) (t : ℚ) : Bool :=
  decide (seg.startSec ≤ t) && decide (t ≤ seg.endSec)

/-- Modelled from the spec: `SegmentStore.findActive` is absent from `src/`
(only §4.1 of the spec describes it).  Linear scan in original order,
stopping at the first segment whose inclusive interval contains `t`,
returning its index, else `none`. -/
def findActive : List Segment → ℚ → Option Nat
  | [], _ => none
  | seg :: rest, t =>
    if segContains seg t then some 0
    else (findActive rest t).map (fun n => n + 1)

/-! ## Basic lemmas about `stop_audio` and `play_audio` -/

/-- After `stop_audio`, the handle reference is always cleared
(src/main.py:174 assigns unconditionally). -/
theorem stop_audio_playObj (s : AppState) : (stop_audio s).playObj = none := by
  unfold stop_audio
  rcases s.playObj with _ | h
  · rfl
  · by_cases hm : h ∈ s.live <;> simp [hm]

/-- Lemma: `stop_audio` leaves every field other than `playObj` and `live`
untouched. -/
theorem stop_audio_frame (s : AppState) :
    (stop_audio s).audioPath = s.audioPath ∧
    (stop_audio s).audioSegment = s.audioSegment ∧
    (stop_audio s).segments = s.segments ∧
    (stop_audio s).nextHandle = s.nextHandle ∧
    (stop_audio s).statusText = s.statusText := by
  unfold stop_audio
  rcases s.playObj with _ | h
  · exact ⟨rfl, rfl, rfl, rfl, rfl⟩
  · by_cases hm : h ∈ s.live <;> simp [hm]

/-- When nothing is referenced, `stop_audio` is the identity. -/
theorem stop_audio_of_none (s : AppState) (h : s.playObj = none) :
    stop_audio s = s := by
  cases s
  simp only [stop_audio]
  cases h
  rfl

/-- C2 helper: `stop_audio` is idempotent. -/
theorem stop_audio_idem (s : AppState) :
    stop_audio (stop_audio s) = stop_audio s :=
  stop_audio_of_none _ (stop_audio_playObj s)

/-- Under the handle invariant, `stop_audio` leaves no live handle at all. -/
theorem stop_audio_live_nil (s : AppState) (hI : Inv s) :
    (stop_audio s).live = [] := by
  obtain ⟨hlen, href, -⟩ := hI
  unfold stop_audio
  rcases hp : s.playObj with _ | h0
  · simp only
    rw [List.eq_nil_iff_forall_not_mem]
    intro a ha
    exact Option.noConfusion (hp ▸ href a ha)
  · by_cases hm : h0 ∈ s.live
    · simp only [hm, if_true]
      have : s.live = [h0] := by
        rcases hl : s.live with _ | ⟨a, _ | ⟨b, l⟩⟩
        · rw [hl] at hm; exact absurd hm (List.not_mem_nil h0)
        · rw [hl] at hm
          rcases List.mem_singleton.mp hm with rfl
          rfl
        · rw [hl] at hlen; simp at hlen
      rw [this]
      simp
    · simp only [hm, if_false]
      rw [List.eq_nil_iff_forall_not_mem]
      intro a ha
      have := hp ▸ href a ha
      rw [Option.some_inj] at this
      exact hm (this ▸ ha)

/-- Under the handle invariant, after `stop_audio` the invariant still
holds. -/
theorem stop_audio_inv (s : AppState) (hI : Inv s) : Inv (stop_audio s) := by
  have hnil := stop_audio_live_nil s hI
  refine ⟨?_, ?_, ?_⟩ <;> rw [hnil] <;> simp

/-- Lemma: `play_audio` does not touch the decoded buffer. -/
theorem play_audio_audioSegment (ms : ℤ) (s : AppState) :
    (play_audio ms s).audioSegment = s.audioSegment := by
  unfold play_audio
  by_cases h : audioTruthy s = true
  · simp only [h, if_true]
    exact (stop_audio_frame s).2.1
  · simp only [eq_false_of_ne_true h]
    simp

/-- Lemma: `audioTruthy` only reads the buffer field. -/
theorem audioTruthy_congr {s t : AppState}
    (h : s.audioSegment = t.audioSegment) : audioTruthy s = audioTruthy t := by
  unfold audioTruthy
  rw [h]

/-- With a (truthy) buffer loaded and the invariant holding, `play_audio`
ends with the fresh handle as the single live one. -/
theorem play_audio_live (ms : ℤ) (s : AppState) (hI : Inv s)
    (hA : audioTruthy s = true) :
    (play_audio ms s).live = [(stop_audio s).nextHandle] := by
  unfold play_audio
  simp only [hA, if_true]
  rw [stop_audio_live_nil s hI]
  rfl

/-- Lemma: `play_audio` preserves the handle invariant. -/
theorem play_audio_inv (ms : ℤ) (s : AppState) (hI : Inv s) :
    Inv (play_audio ms s) := by
  unfold play_audio
  by_cases hA : audioTruthy s = true
  · simp only [hA, if_true]
    rw [stop_audio_live_nil s hI]
    refine ⟨by simp, ?_, ?_⟩ <;> intro h hh <;> simp at hh <;> simp [hh]
  · simp only [eq_false_of_ne_true hA, if_false]
    exact hI

/-- Every playback operation preserves the handle invariant. -/
theorem applyOp_inv (op : Op) (s : AppState) (hI : Inv s) :
    Inv (applyOp op s) := by
  cases op with
  | play ms => exact play_audio_inv ms s hI
  | stop => exact stop_audio_inv s hI

/-- Playback operations do not touch the decoded buffer. -/
theorem applyOp_audioSegment (op : Op) (s : AppState) :
    (applyOp op s).audioSegment = s.audioSegment := by
  cases op with
  | play ms => exact play_audio_audioSegment ms s
  | stop => exact (stop_audio_frame s).2.1

/-- Any sequence of playback operations preserves the handle invariant. -/
theorem runOps_inv (ops : List Op) (s : AppState) (hI : Inv s) :
    Inv (runOps ops s) := by
  induction ops generalizing s with
  | nil => exact hI
  | cons op rest ih => exact ih (applyOp op s) (applyOp_inv op s hI)

/-- Any sequence of playback operations leaves the buffer alone. -/
theorem runOps_audioSegment (ops : List Op) (s : AppState) :
    (runOps ops s).audioSegment = s.audioSegment := by
  induction ops generalizing s with
  | nil => rfl
  | cons op rest ih =>
    exact (ih (applyOp op s)).trans (applyOp_audioSegment op s)

/-- A concrete widget state with a loaded (truthy) audio buffer, nothing
playing, and no job running. -/
def sInit : AppState :=
  { audioPath := some "a.wav", audioSegment := some 1000, playObj := none,
    live := [], nextHandle := 0, playStartMs := 0, segments := [],
    statusText := "Loaded audio: a.wav", worker := none, runningJobs := [],
    nextWorker := 0, modelLoaded := true, transcribeEnabled := true,
    playEnabled := true, stopEnabled := true, loadEnabled := true,
    listEnabled := true }

/-! ## Claim theorems -/

/-- C1: starting playback first tears down any live handle
(src/main.py:153 calls `stop_audio` before `sa.play_buffer`).  From any
state reachable by play/stop operations from a state satisfying the handle
invariant, at most one handle is live; and after `play(a)` followed by
`play(b)` exactly one handle is live. -/
theorem play_overlap_free (s : AppState) (hI : Inv s)
    (hA : audioTruthy s = true) (ops : List Op) (a b : ℤ) :
    (runOps ops s).live.length ≤ 1 ∧
    (play_audio b (play_audio a (runOps ops s))).live.length = 1 := by
  have hI1 : Inv (runOps ops s) := runOps_inv ops s hI
  have hA1 : audioTruthy (runOps ops s) = true :=
    (audioTruthy_congr (runOps_audioSegment ops s)).trans hA
  have hI2 : Inv (play_audio a (runOps ops s)) := play_audio_inv a _ hI1
  have hA2 : audioTruthy (play_audio a (runOps ops s)) = true :=
    (audioTruthy_congr (play_audio_audioSegment a _)).trans hA1
  refine ⟨hI1.1, ?_⟩
  rw [play_audio_live b _ hI2 hA2]
  rfl

/-- C1 witness: instantiated at a concrete loaded state and the schedule
`[stop, play 7]`, then `play 1; play 2`. -/
theorem play_overlap_free_witness :
    Inv sInit ∧ audioTruthy sInit = true ∧
    ((runOps [Op.stop, Op.play 7] sInit).live.length ≤ 1 ∧
      (play_audio 2 (play_audio 1
        (runOps [Op.stop, Op.play 7] sInit))).live.length = 1) :=
  ⟨by decide, by decide,
    play_overlap_free sInit (by decide) (by decide) [Op.stop, Op.play 7] 1 2⟩

/-- C2: `stop_audio` is total (it is a plain function `AppState → AppState`
with no error outcome), idempotent, always leaves `play_obj = None`
(src/main.py:174), and under the handle invariant leaves no live handle on
the device. -/
theorem stop_idempotent_total (s : AppState) :
    stop_audio (stop_audio s) = stop_audio s ∧
    (stop_audio s).playObj = none ∧
    (Inv s → (stop_audio s).live = []) :=
  ⟨stop_audio_idem s, stop_audio_playObj s, stop_audio_live_nil s⟩

/-- A concrete widget state with one handle playing. -/
def sPlaying : AppState :=
  { sInit with playObj := some 0, live := [0], nextHandle := 1 }

/-- C2 witness: instantiated at a concrete state with a handle playing. -/
theorem stop_idempotent_total_witness :
    (stop_audio (stop_audio sPlaying) = stop_audio sPlaying ∧
      (stop_audio sPlaying).playObj = none ∧
      (Inv sPlaying → (stop_audio sPlaying).live = [])) ∧
    Inv sPlaying :=
  ⟨stop_idempotent_total sPlaying, by decide⟩

/-- C3 counterexample: after one `transcribe_audio` on a loaded state the
worker with id 0 is running; a second `transcribe_audio` call is *not*
rejected — it starts worker 1 as well (two jobs running), leaves the status
at "Transcribing..." (no `JobAlreadyRunning` anywhere), and changes the
state.  The source (src/main.py:113-129) only guards on `audio_path` and
`model`. -/
theorem transcribe_reject_counterexample :
    (transcribe_audio sInit).runningJobs = [0] ∧
    (transcribe_audio (transcribe_audio sInit)).runningJobs = [0, 1] ∧
    (transcribe_audio (transcribe_audio sInit)).statusText = "Transcribing..." ∧
    transcribe_audio (transcribe_audio sInit) ≠ transcribe_audio sInit := by
  refine ⟨rfl, rfl, rfl, ?_⟩
  decide

/-- C3 amended: `transcribe_audio` never checks for a running job and never
fails with `JobAlreadyRunning`; whenever the audio path and the model are
loaded it unconditionally starts a fresh worker (even while another is
running), overwriting `self.worker`; re-entry is prevented only by the UI
disabling the Transcribe button while a job runs. -/
theorem transcribe_starts_job_unconditionally (s : AppState)
    (h1 : pathTruthy s = true) (h2 : s.modelLoaded = true) :
    (transcribe_audio s).runningJobs = s.runningJobs ++ [s.nextWorker] ∧
    (transcribe_audio s).worker = some s.nextWorker ∧
    (transcribe_audio s).statusText = "Transcribing..." ∧
    (transcribe_audio s).transcribeEnabled = false ∧
    (transcribe_audio s).segments = s.segments ∧
    (transcribe_audio s).audioPath = s.audioPath := by
  unfold transcribe_audio
  rw [h1, h2]
  exact ⟨rfl, rfl, rfl, rfl, rfl, rfl⟩

/-- C3 amended witness: instantiated at the state in which worker 0 is
already running. -/
theorem transcribe_starts_job_unconditionally_witness :
    pathTruthy (transcribe_audio sInit) = true ∧
    (transcribe_audio sInit).modelLoaded = true ∧
    ((transcribe_audio (transcribe_audio sInit)).runningJobs =
        (transcribe_audio sInit).runningJobs ++ [(transcribe_audio sInit).nextWorker] ∧
      (transcribe_audio (transcribe_audio sInit)).worker =
        some (transcribe_audio sInit).nextWorker ∧
      (transcribe_audio (transcribe_audio sInit)).statusText = "Transcribing..." ∧
      (transcribe_audio (transcribe_audio sInit)).transcribeEnabled = false ∧
      (transcribe_audio (transcribe_audio sInit)).segments =
        (transcribe_audio sInit).segments ∧
      (transcribe_audio (transcribe_audio sInit)).audioPath =
        (transcribe_audio sInit).audioPath) :=
  ⟨by decide, rfl,
    transcribe_starts_job_unconditionally (transcribe_audio sInit) (by decide) rfl⟩

/-- The concrete recognition result used in counterexamples for the worker
machine. -/
def segsA : List Segment := [⟨"A", 0, 1⟩]

/-- C4 counterexample: in the schedule `[step, cancel, step]` the `stop()`
(index 1) is delivered after the worker's single flag check but before the
completion is delivered — the run had emitted nothing yet — and the
`finished` event is still emitted afterwards: the flag is never re-checked
between the recognition call returning and `finished.emit`
(src/main.py:29-38). -/
theorem cancel_suppression_counterexample :
    [WAct.step, WAct.cancel, WAct.step].get? 1 = some WAct.cancel ∧
    (wrun segsA [WAct.step] w0).emitted = [] ∧
    (wrun segsA [WAct.step, WAct.cancel, WAct.step] w0).isRunning = false ∧
    WEvent.finished segsA ∈
      (wrun segsA [WAct.step, WAct.cancel, WAct.step] w0).emitted := by
  refine ⟨rfl, rfl, rfl, ?_⟩
  decide

/-- With the flag clear and the worker not past the check, a step either
skips the body (from the check) or does nothing. -/
theorem wstep_of_not_running (segs : List Segment) (m : WorkerM)
    (hr : m.isRunning = false) (hpc : m.pc ≠ 1) :
    wstep segs m = if m.pc = 0 then { m with pc := 2 } else m := by
  unfold wstep
  rcases hm : m.pc with _ | _ | k
  · simp [hm, hr]
  · exact absurd hm hpc
  · simp [hm]

/-- Helper for C4: once the flag is clear and the worker has not yet passed
the check, nothing is ever emitted. -/
theorem wrun_no_emit (segs : List Segment) (acts : List WAct) (m : WorkerM)
    (hr : m.isRunning = false) (hpc : m.pc ≠ 1) (he : m.emitted = []) :
    (wrun segs acts m).emitted = [] := by
  induction acts generalizing m with
  | nil => exact he
  | cons a rest ih =>
    cases a with
    | step =>
      show (wrun segs rest (wstep segs m)).emitted = []
      rw [wstep_of_not_running segs m hr hpc]
      by_cases h0 : m.pc = 0
      · rw [if_pos h0]
        exact ih { m with pc := 2 } hr (by simp) he
      · rw [if_neg h0]
        exact ih m hr hpc he
    | cancel =>
      show (wrun segs rest (wcancel m)).emitted = []
      exact ih (wcancel m) rfl hpc he

/-- C4 amended: cancellation suppresses the recognition call and the
`finished` event only when `stop()` lands before the worker's single flag
check (which precedes the recognition call); a `stop()` delivered after the
check — i.e. while the recognition call is in flight — does not prevent the
completion from being delivered. -/
theorem cancel_suppresses_only_before_check (segs : List Segment)
    (rest : List WAct) :
    (wrun segs (WAct.cancel :: rest) w0).emitted = [] ∧
    (wrun segs [WAct.step, WAct.cancel, WAct.step] w0).emitted =
      [WEvent.finished segs] := by
  constructor
  · show (wrun segs rest (wcancel w0)).emitted = []
    exact wrun_no_emit segs rest (wcancel w0) rfl (by decide) rfl
  · rfl

/-- A recognition result entry whose text is whitespace-only. -/
def wsSeg : Segment := ⟨"   ", 0, 1⟩

/-- C5 counterexample: a whitespace-only entry in the raw recognition result
is emitted by the worker and stored by `on_transcription_done` unchanged —
no blank filtering exists anywhere on the path (src/main.py:35-36 and
131-132). -/
theorem blank_segment_stored_counterexample :
    wsSeg.text.data.all Char.isWhitespace = true ∧
    (wrun [wsSeg] [WAct.step, WAct.step] w0).emitted =
      [WEvent.finished [wsSeg]] ∧
    (on_transcription_done sInit [wsSeg]).segments = [wsSeg] ∧
    wsSeg ∈ (on_transcription_done sInit [wsSeg]).segments := by
  refine ⟨by decide, rfl, rfl, ?_⟩
  exact List.mem_singleton.mpr rfl

/-- C5 amended: no filtering takes place: the worker emits the raw
recognition result verbatim and `on_transcription_done` stores it verbatim,
so blank/whitespace-only entries reach the stored segment sequence. -/
theorem segments_stored_verbatim (segs : List Segment) (s : AppState) :
    (wrun segs [WAct.step, WAct.step] w0).emitted = [WEvent.finished segs] ∧
    (on_transcription_done s segs).segments = segs :=
  ⟨rfl, rfl⟩

/-- A decoder that always fails, modelling `AudioSegment.from_file` raising
on an unreadable path. -/
def decodeFail : String → Except String Nat :=
  fun _ => .error "decode failed"

/-- C6 counterexample: loading an undecodable path on a state that already
holds `a.wav` leaves the buffer alone but overwrites `audio_path` with the
failing path — `self.audio_path = file_name` (src/main.py:105) executes
before the decode attempt, so the claimed state revert does not happen. -/
theorem load_failure_counterexample :
    decodeFail "missing.wav" = .error "decode failed" ∧
    sInit.audioPath = some "a.wav" ∧
    (load_audio sInit (some "missing.wav") decodeFail).audioPath =
      some "missing.wav" ∧
    (load_audio sInit (some "missing.wav") decodeFail).audioPath ≠
      sInit.audioPath ∧
    (load_audio sInit (some "missing.wav") decodeFail).audioSegment =
      sInit.audioSegment := by
  refine ⟨rfl, rfl, rfl, ?_, rfl⟩
  decide

/-- C6 amended: on a decode failure, `load_audio` keeps the decoded buffer,
the segments and the playback state, but the stored audio path has already
been overwritten with the failing path and the status shows the error. -/
theorem load_failure_keeps_buffer_overwrites_path (s : AppState) (f : String)
    (decode : String → Except String Nat) (e : String)
    (h : decode f = .error e) :
    load_audio s (some f) decode =
      { s with audioPath := some f,
               statusText := "Error loading audio: " ++ e } := by
  simp only [load_audio]
  rw [h]

/-- C6 amended witness: instantiated at the always-failing decoder. -/
theorem load_failure_keeps_buffer_overwrites_path_witness :
    decodeFail "missing.wav" = .error "decode failed" ∧
    load_audio sInit (some "missing.wav") decodeFail =
      { sInit with audioPath := some "missing.wav",
                   statusText := "Error loading audio: decode failed" } :=
  ⟨rfl, load_failure_keeps_buffer_overwrites_path sInit "missing.wav"
    decodeFail "decode failed" rfl⟩

/-- C8: `on_transcription_error` surfaces the failure in the status label
and re-enables the buttons, but retains the audio path, the decoded buffer,
the previously stored segments and the playback state exactly
(src/main.py:142-147 touch nothing else). -/
theorem transcription_error_frame (s : AppState) (msg : String) :
    (on_transcription_error s msg).statusText = "Transcription error: " ++ msg ∧
    (on_transcription_error s msg).audioPath = s.audioPath ∧
    (on_transcription_error s msg).audioSegment = s.audioSegment ∧
    (on_transcription_error s msg).segments = s.segments ∧
    (on_transcription_error s msg).playObj = s.playObj ∧
    (on_transcription_error s msg).live = s.live ∧
    (on_transcription_error s msg).worker = s.worker :=
  ⟨rfl, rfl, rfl, rfl, rfl, rfl, rfl⟩

/-- Rounding a value that is already an integer changes nothing. -/
theorem roundHalfEven_intCast (n : ℤ) : roundHalfEven (n : ℚ) = n := by
  unfold roundHalfEven
  rw [Int.floor_intCast]
  norm_num

/-- The millisecond offset `jump_to_word` computes from the rendered item
text: `int(float(rendered) * 1000)` equals ten times the start rounded to
centiseconds. -/
theorem floor_fmt2_mul_1000 (q : ℚ) :
    ⌊fmt2 q * 1000⌋ = 10 * roundHalfEven (100 * q) := by
  have h : fmt2 q * 1000 = ((10 * roundHalfEven (100 * q) : ℤ) : ℚ) := by
    unfold fmt2
    push_cast
    ring
  rw [h, Int.floor_intCast]

/-- With a truthy buffer, `play_audio` records the requested offset. -/
theorem play_audio_playStartMs (ms : ℤ) (s : AppState)
    (hA : audioTruthy s = true) : (play_audio ms s).playStartMs = ms := by
  simp [play_audio, hA]

/-- A concrete state whose only segment starts at 0.125 s. -/
def sEighth : AppState :=
  { sInit with segments := [⟨"A", 1 / 8, 2⟩] }

/-- C7 counterexample: for the segment starting at 0.125 s, the item text
renders the start as "0.12" (`:.2f`, ties to even), `jump_to_word` parses
that back and plays from 120 ms — not from `0.125 * 1000 = 125` ms as the
claim requires. -/
theorem select_segment_offset_counterexample :
    sEighth.segments.get? 0 = some ⟨"A", 1 / 8, 2⟩ ∧
    (jump_to_word sEighth 0).playStartMs = 120 ∧
    ((1 : ℚ) / 8) * 1000 = 125 ∧
    ((120 : ℤ) : ℚ) ≠ ((1 : ℚ) / 8) * 1000 := by
  have e1 : jump_to_word sEighth 0 =
      play_audio ⌊fmt2 ((1 : ℚ) / 8) * 1000⌋
        (stop_audio { sEighth with listEnabled := false }) := rfl
  have e2 : roundHalfEven (100 * ((1 : ℚ) / 8)) = 12 := by
    unfold roundHalfEven
    norm_num
  refine ⟨rfl, ?_, by norm_num, by norm_num⟩
  rw [e1, floor_fmt2_mul_1000, e2,
    play_audio_playStartMs _ _ (by decide)]
  norm_num

/-- C7 amended: `jump_to_word` on a valid index always disables the list,
calls `stop_audio` and then `play_audio` (never toggles), but the offset it
seeks to is the segment's start *rounded to centiseconds* (as recovered from
the `:.2f`-rendered item text) times 1000 — which agrees with
`startSec * 1000` exactly when 100 times the start is an integer (at most
two decimal places). -/
theorem select_segment_seeks_rounded (s : AppState) (i : Nat) (seg : Segment)
    (hget : s.segments.get? i = some seg) :
    jump_to_word s i =
      play_audio (10 * roundHalfEven (100 * seg.startSec))
        (stop_audio { s with listEnabled := false }) ∧
    (∀ n : ℤ, 100 * seg.startSec = (n : ℚ) →
      ((10 * roundHalfEven (100 * seg.startSec) : ℤ) : ℚ) =
        seg.startSec * 1000) := by
  constructor
  · simp only [jump_to_word]
    rw [hget]
    simp only [floor_fmt2_mul_1000]
  · intro n hn
    rw [hn, roundHalfEven_intCast]
    push_cast
    rw [← hn]
    ring

/-- A concrete state whose only segment starts at 0.75 s. -/
def sQuarters : AppState :=
  { sInit with segments := [⟨"B", 3 / 4, 2⟩] }

/-- C7 amended witness: a segment starting at 0.75 s (exactly two decimals)
seeks to exactly 750 ms. -/
theorem select_segment_seeks_rounded_witness :
    sQuarters.segments.get? 0 = some ⟨"B", 3 / 4, 2⟩ ∧
    jump_to_word sQuarters 0 =
      play_audio (10 * roundHalfEven (100 * (3 / 4 : ℚ)))
        (stop_audio { sQuarters with listEnabled := false }) ∧
    100 * (3 / 4 : ℚ) = ((75 : ℤ) : ℚ) ∧
    ((10 * roundHalfEven (100 * (3 / 4 : ℚ)) : ℤ) : ℚ) = (3 / 4 : ℚ) * 1000 :=
  ⟨rfl, (select_segment_seeks_rounded sQuarters 0 ⟨"B", 3 / 4, 2⟩ rfl).1,
    by norm_num,
    (select_segment_seeks_rounded sQuarters 0 ⟨"B", 3 / 4, 2⟩ rfl).2 75
      (by norm_num)⟩

/-- Lemma: `segContains` unfolded to the two comparisons of §4.1. -/
theorem segContains_iff (seg : Segment) (t : ℚ) :
    segContains seg t = true ↔ seg.startSec ≤ t ∧ t ≤ seg.endSec := by
  simp [segContains]

/-- Lemma: `findActive` returns `none` exactly when no segment's inclusive interval
contains `t`. -/
theorem findActive_none_iff (segs : List Segment) (t : ℚ) :
    findActive segs t = none ↔ ∀ seg ∈ segs, segContains seg t = false := by
  induction segs with
  | nil => simp [findActive]
  | cons a rest ih =>
    simp only [findActive]
    by_cases h : segContains a t = true
    · simp [h]
    · have h' : segContains a t = false := eq_false_of_ne_true h
      simp [h', Option.map_eq_none', ih, List.forall_mem_cons]

/-- Lemma: `findActive` is a first-match linear scan: a returned index is in range,
its segment contains `t`, and every earlier segment does not. -/
theorem findActive_first_match (segs : List Segment) (t : ℚ) (i : Nat)
    (h : findActive segs t = some i) :
    ∃ hi : i < segs.length,
      segContains (segs.get ⟨i, hi⟩) t = true ∧
      ∀ j, j < i → ∀ hj : j < segs.length,
        segContains (segs.get ⟨j, hj⟩) t = false := by
  induction segs generalizing i with
  | nil => simp [findActive] at h
  | cons a rest ih =>
    simp only [findActive] at h
    by_cases ha : segContains a t = true
    · rw [if_pos ha] at h
      obtain rfl : (0 : Nat) = i := Option.some_inj.mp h
      refine ⟨Nat.succ_pos _, ha, ?_⟩
      intro j hj _
      exact absurd hj (Nat.not_lt_zero j)
    · rw [if_neg ha] at h
      obtain ⟨n, hn, rfl⟩ := Option.map_eq_some'.mp h
      obtain ⟨hlt, hc, hprev⟩ := ih n hn
      refine ⟨Nat.succ_lt_succ hlt, hc, ?_⟩
      intro j hjlt hjlen
      cases j with
      | zero => exact eq_false_of_ne_true ha
      | succ m =>
        exact hprev m (Nat.lt_of_succ_lt_succ hjlt) (Nat.lt_of_succ_lt_succ hjlen)

/-- C9: for a non-overlapping, start-sorted segment list (encoded as: each
segment ends no later than any later one starts), `findActive t` is `none`
exactly when no segment contains `t`; and when it returns `i`, segment `i`
contains `t`, every other segment containing `t` has index `≥ i` (the
earliest-starting segment wins), and such a distinct `j` can only claim `t`
on a shared boundary: `t` is then exactly segment `i`'s end and segment
`j`'s start. -/
theorem findActive_unique_first (segs : List Segment) (t : ℚ)
    (hord : segs.Pairwise (fun a b => a.endSec ≤ b.startSec)) :
    (findActive segs t = none ↔ ∀ seg ∈ segs, segContains seg t = false) ∧
    ∀ i, findActive segs t = some i →
      ∃ hi : i < segs.length,
        segContains (segs.get ⟨i, hi⟩) t = true ∧
        ∀ j, ∀ hj : j < segs.length, segContains (segs.get ⟨j, hj⟩) t = true →
          i ≤ j ∧
          (i < j → (segs.get ⟨i, hi⟩).endSec = t ∧
            (segs.get ⟨j, hj⟩).startSec = t) := by
  refine ⟨findActive_none_iff segs t, ?_⟩
  intro i h
  obtain ⟨hi, hc, hprev⟩ := findActive_first_match segs t i h
  refine ⟨hi, hc, ?_⟩
  intro j hj hcj
  have hij : i ≤ j := by
    by_contra hcon
    push_neg at hcon
    rw [hprev j hcon hj] at hcj
    exact Bool.noConfusion hcj
  refine ⟨hij, ?_⟩
  intro hlt
  have hR : (segs.get ⟨i, hi⟩).endSec ≤ (segs.get ⟨j, hj⟩).startSec :=
    List.pairwise_iff_get.mp hord ⟨i, hi⟩ ⟨j, hj⟩ hlt
  have h1 := (segContains_iff _ t).mp hc
  have h2 := (segContains_iff _ t).mp hcj
  exact ⟨le_antisymm (hR.trans h2.1) h1.2, le_antisymm h2.1 (h1.2.trans hR)⟩

/-- The two-segment timeline of spec scenario 1. -/
def segsW : List Segment := [⟨"A", 0, 2⟩, ⟨"B", 2, 4⟩]

/-- C9 witness: instantiated at scenario 1's timeline with `t = 2`, the
boundary shared by both segments. -/
theorem findActive_unique_first_witness :
    segsW.Pairwise (fun a b => a.endSec ≤ b.startSec) ∧
    ((findActive segsW 2 = none ↔ ∀ seg ∈ segsW, segContains seg 2 = false) ∧
      ∀ i, findActive segsW 2 = some i →
        ∃ hi : i < segsW.length,
          segContains (segsW.get ⟨i, hi⟩) 2 = true ∧
          ∀ j, ∀ hj : j < segsW.length,
            segContains (segsW.get ⟨j, hj⟩) 2 = true →
            i ≤ j ∧
            (i < j → (segsW.get ⟨i, hi⟩).endSec = 2 ∧
              (segsW.get ⟨j, hj⟩).startSec = 2)) :=
  ⟨by norm_num [segsW, List.pairwise_cons],
    findActive_unique_first segsW 2 (by norm_num [segsW, List.pairwise_cons])⟩

/-- The spec's scenario 1, checked against the spec-modelled `findActive`:
`findActive 1.0 = 0`, `findActive 2.0 = 0` (earlier segment wins the shared
boundary), `findActive 2.5 = 1`, `findActive 5.0 = none`. -/
theorem findActive_scenario :
    findActive segsW 1 = some 0 ∧
    findActive segsW 2 = some 0 ∧
    findActive segsW (5 / 2) = some 1 ∧
    findActive segsW 5 = none := by
  refine ⟨?_, ?_, ?_, ?_⟩ <;>
    simp only [segsW, findActive, segContains] <;> norm_num

/-- C10: with no decoded buffer present, `play_audio` is a silent no-op —
the `if self.audio_segment` guard (src/main.py:150) fails, so the state is
returned unchanged, no handle is started and no error is raised. -/
theorem play_audio_noop_unloaded (startMs : ℤ) (s : AppState)
    (h : s.audioSegment = none) : play_audio startMs s = s := by
  unfold play_audio
  have : audioTruthy s = false := by unfold audioTruthy; rw [h]
  rw [this]
  simp

/-- C10 witness: instantiated at a concrete state with no buffer. -/
theorem play_audio_noop_unloaded_witness :
    ({ sInit with audioSegment := none } : AppState).audioSegment = none ∧
    play_audio 5 { sInit with audioSegment := none } =
      { sInit with audioSegment := none } :=
  ⟨rfl, play_audio_noop_unloaded 5 _ rfl⟩

end Transcriber
